import Mathlib

/-!
# Verification of the rxjs subscription/operator engine excerpt

Shallow embedding of the engine pieces the claims are about:

* the Subscriber lifecycle guard (modelled from §4.2 of the spec — the
  Subscriber base class is not part of the excerpted sources),
* the per-stage operator subscribers, in particular `MaterializeSubscriber`
  from `src/src/internal/operators/materialize.ts` and the value-replacement
  stage `mapTo` (modelled from §4.4 of the spec — only its tests are in the
  excerpt),
* the Subscription disposal tree (modelled from §4.3 of the spec),
* `lift` over immutable Observables (modelled from §4.1 of the spec),
* the synchronous producer loop of the cancellation test in
  `src/unnamed/part_000`.

Delivery is synchronous and single-threaded (§5), so a pipeline run is a
fold of upstream delivery calls over explicit state.
-/

namespace RxEngine

/-- Modelled from the spec (§4.2): the Subscriber lifecycle states.
`ACTIVE → STOPPED` on error/completion, `→ CLOSED` on disposal. -/
inductive SubState where
  | ACTIVE
  | STOPPED
  | CLOSED
deriving DecidableEq, Repr

/-- A downstream event as observed at a destination: a value on the value
channel, an error on the error channel, or a completion. -/
inductive Event (α ε : Type) where
  | next (v : α)
  | err (e : ε)
  | complete
deriving DecidableEq, Repr

/-- An upstream delivery call into a Subscriber: the three delivery methods
plus disposal (cancellation).  Upstream may misbehave, so an arbitrary list
of calls is allowed. -/
inductive Call (α ε : Type) where
  | next (v : α)
  | err (e : ε)
  | complete
  | dispose
deriving DecidableEq, Repr

/-- `true` exactly on error-channel events. -/
def Event.isErr {α ε : Type} : Event α ε → Bool
  | .err _ => true
  | _ => false

/-- `true` exactly on completion events. -/
def Event.isComplete {α ε : Type} : Event α ε → Bool
  | .complete => true
  | _ => false

/-- Modelled from the spec (§3, §4.2): a destination Subscriber is its
lifecycle state together with the sequence of events actually forwarded to
the wrapped observer (`received`, in delivery order). -/
structure Sub (α ε : Type) where
  state : SubState
  received : List (Event α ε)
deriving DecidableEq, Repr

/-- A freshly constructed Subscriber: `ACTIVE`, nothing delivered yet. -/
def Sub.init {α ε : Type} : Sub α ε := ⟨.ACTIVE, []⟩

/-- Modelled from the spec (§4.2): `dispose()` — from any non-`CLOSED`
state transition to `CLOSED` without notifying the destination. -/
def Sub.dispose {α ε : Type} (s : Sub α ε) : Sub α ε :=
  if s.state = .CLOSED then s else { s with state := .CLOSED }

/-- Modelled from the spec (§4.2): `deliverValue` — permitted only from
`ACTIVE`; forwards the value; otherwise a no-op. -/
def Sub.deliverValue {α ε : Type} (s : Sub α ε) (v : α) : Sub α ε :=
  if s.state = .ACTIVE then { s with received := s.received ++ [.next v] } else s

/-- Modelled from the spec (§4.2): `deliverError` — permitted only from
`ACTIVE`; transitions to `STOPPED` (state updated before forwarding),
forwards the error, then immediately disposes; otherwise a no-op. -/
def Sub.deliverError {α ε : Type} (s : Sub α ε) (e : ε) : Sub α ε :=
  if s.state = .ACTIVE then
    Sub.dispose ⟨.STOPPED, s.received ++ [.err e]⟩
  else s

/-- Modelled from the spec (§4.2): `deliverComplete` — permitted only from
`ACTIVE`; transitions to `STOPPED`, forwards completion, then immediately
disposes; otherwise a no-op. -/
def Sub.deliverComplete {α ε : Type} (s : Sub α ε) : Sub α ε :=
  if s.state = .ACTIVE then
    Sub.dispose ⟨.STOPPED, s.received ++ [.complete]⟩
  else s

/-- Dispatch one upstream call through the Subscriber guard. -/
def Sub.stepCall {α ε : Type} (s : Sub α ε) : Call α ε → Sub α ε
  | .next v => s.deliverValue v
  | .err e => s.deliverError e
  | .complete => s.deliverComplete
  | .dispose => s.dispose

/-- Run an arbitrary (possibly misbehaving) sequence of upstream calls. -/
def Sub.runCalls {α ε : Type} (s : Sub α ε) (cs : List (Call α ε)) : Sub α ε :=
  cs.foldl Sub.stepCall s

/-- Deliver one event produced by a stage into the destination, through the
destination's own guard. -/
def Sub.deliverEvent {α ε : Type} (s : Sub α ε) : Event α ε → Sub α ε
  | .next v => s.deliverValue v
  | .err e => s.deliverError e
  | .complete => s.deliverComplete

/-- Deliver a list of stage-produced events in order. -/
def Sub.deliverList {α ε : Type} (s : Sub α ε) (evs : List (Event α ε)) : Sub α ε :=
  evs.foldl Sub.deliverEvent s

/-- The pure transformation core of an operator Subscriber: the overridden
`_next` / `_error` / `_complete` bodies, each returning the events the stage
pushes into its destination.  Stages hold no state of their own (§3). -/
structure Stage (α β ε : Type) where
  onNext : α → List (Event β ε)
  onError : ε → List (Event β ε)
  onComplete : List (Event β ε)

/-- Modelled from the spec (§4.4): `mapTo(c)` — ignore the upstream value
and deliver the constant; error and completion pass through unchanged. -/
def mapToStage {α β ε : Type} (c : β) : Stage α β ε where
  onNext := fun _ => [.next c]
  onError := fun e => [.err e]
  onComplete := [.complete]

/-- `Notification<T>` (§3): a tagged reification of one stream event.
`N`/`E`/`C` mirror the source's kind tags. -/
inductive Notification (α ε : Type) where
  | N (v : α)
  | E (e : ε)
  | C
deriving DecidableEq, Repr

/-- `Notification.createNext` from the source. -/
def Notification.createNext {α ε : Type} (v : α) : Notification α ε := .N v

/-- `Notification.createError` from the source. -/
def Notification.createError {α ε : Type} (e : ε) : Notification α ε := .E e

/-- `Notification.createComplete` from the source. -/
def Notification.createComplete {α ε : Type} : Notification α ε := .C

/-- `MaterializeSubscriber` from `src/src/internal/operators/materialize.ts`
lines 84–98: `_next v` delivers `Notification.createNext v` as a value;
`_error e` delivers `Notification.createError e` as a value then completes;
`_complete` delivers `Notification.createComplete` as a value then
completes. -/
def materializeStage {α ε : Type} : Stage α (Notification α ε) ε where
  onNext := fun v => [.next (Notification.createNext v)]
  onError := fun e => [.next (Notification.createError e), .complete]
  onComplete := [.next Notification.createComplete, .complete]

/-- A one-stage pipeline: the operator Subscriber's own lifecycle state
(`stage`) chained to the destination Subscriber (`dest`). -/
structure Pipe (β ε : Type) where
  stage : SubState
  dest : Sub β ε
deriving DecidableEq, Repr

/-- A freshly subscribed one-stage pipeline. -/
def Pipe.init {β ε : Type} : Pipe β ε := ⟨.ACTIVE, Sub.init⟩

/-- One upstream call into the stage Subscriber: its own guard rejects
post-terminal calls; when active, the stage's transformation runs and its
output events are delivered into the destination through the destination's
guard.  A terminal call closes the stage (via `STOPPED`, §4.2) before the
forwarding takes effect; disposal closes both ends without notification. -/
def Pipe.step {α β ε : Type} (stg : Stage α β ε) (p : Pipe β ε) : Call α ε → Pipe β ε
  | .next v =>
    if p.stage = .ACTIVE then { p with dest := p.dest.deliverList (stg.onNext v) } else p
  | .err e =>
    if p.stage = .ACTIVE then ⟨.CLOSED, p.dest.deliverList (stg.onError e)⟩ else p
  | .complete =>
    if p.stage = .ACTIVE then ⟨.CLOSED, p.dest.deliverList stg.onComplete⟩ else p
  | .dispose =>
    if p.stage = .CLOSED then p else ⟨.CLOSED, p.dest.dispose⟩

/-- Run an arbitrary upstream call sequence through a one-stage pipeline. -/
def Pipe.run {α β ε : Type} (stg : Stage α β ε) (p : Pipe β ε) (cs : List (Call α ε)) :
    Pipe β ε :=
  cs.foldl (Pipe.step stg) p

/-- Number of terminal events (errors plus completions) in a delivered
record. -/
def termCount {α ε : Type} (l : List (Event α ε)) : Nat :=
  l.countP Event.isErr + l.countP Event.isComplete

/-- The Subscriber guard invariant: an active destination has received no
terminal event, and in any case at most one terminal event was received. -/
def SubInv {α ε : Type} (s : Sub α ε) : Prop :=
  (s.state = .ACTIVE → termCount s.received = 0) ∧ termCount s.received ≤ 1

/-! ## Two stages in series -/

/-- Reinject a stage-produced event into the next stage as a delivery
call. -/
def Event.toCall {α ε : Type} : Event α ε → Call α ε
  | .next v => .next v
  | .err e => .err e
  | .complete => .complete

/-- A two-stage pipeline: the first stage Subscriber's lifecycle state
chained to a one-stage pipeline. -/
structure Pipe2 (γ ε : Type) where
  s1 : SubState
  inner : Pipe γ ε
deriving DecidableEq, Repr

/-- A freshly subscribed two-stage pipeline. -/
def Pipe2.init {γ ε : Type} : Pipe2 γ ε := ⟨.ACTIVE, Pipe.init⟩

/-- One upstream call into the first stage: its guard rejects post-terminal
calls; when active, its transformation's output events are delivered, in
order, into the second stage as calls. -/
def Pipe2.step {α β γ ε : Type} (st1 : Stage α β ε) (st2 : Stage β γ ε)
    (q : Pipe2 γ ε) : Call α ε → Pipe2 γ ε
  | .next v =>
    if q.s1 = .ACTIVE then
      { q with inner := Pipe.run st2 q.inner ((st1.onNext v).map Event.toCall) }
    else q
  | .err e =>
    if q.s1 = .ACTIVE then
      ⟨.CLOSED, Pipe.run st2 q.inner ((st1.onError e).map Event.toCall)⟩
    else q
  | .complete =>
    if q.s1 = .ACTIVE then
      ⟨.CLOSED, Pipe.run st2 q.inner (st1.onComplete.map Event.toCall)⟩
    else q
  | .dispose =>
    if q.s1 = .CLOSED then q else ⟨.CLOSED, Pipe.step st2 q.inner .dispose⟩

/-- Run an upstream call sequence through a two-stage pipeline. -/
def Pipe2.run {α β γ ε : Type} (st1 : Stage α β ε) (st2 : Stage β γ ε)
    (q : Pipe2 γ ε) (cs : List (Call α ε)) : Pipe2 γ ε :=
  cs.foldl (Pipe2.step st1 st2) q

/-! ## Subscription disposal tree -/

/-- Modelled from the spec (§3, §4.3): a Subscription owns a `closed` flag
and the registered child teardown units, identified here by ids, kept in
registration order. -/
structure Subscription where
  closed : Bool
  children : List Nat
deriving DecidableEq, Repr

/-- Modelled from the spec (§4.3): `unsubscribe()` — no-op when already
closed; otherwise set `closed`, clear the registry, and dispose every
registered child exactly once in registration order.  The second component
is the list of child ids disposed by this call, in disposal order. -/
def Subscription.unsubscribe (s : Subscription) : Subscription × List Nat :=
  if s.closed then (s, [])
  else ({ closed := true, children := [] }, s.children)

/-- `unsubscribe()` called `n` times in a row: final state plus the
concatenated disposal log of all the calls. -/
def Subscription.unsubscribeTimes (s : Subscription) : Nat → Subscription × List Nat
  | 0 => (s, [])
  | n + 1 =>
    let r := s.unsubscribe
    let r' := r.1.unsubscribeTimes n
    (r'.1, r.2 ++ r'.2)

/-- Modelled from the spec (§4.3): `add(child)` — if closed, dispose the
child immediately (it appears in the disposal log) and do not register it;
otherwise append it to the registry. -/
def Subscription.add (s : Subscription) (c : Nat) : Subscription × List Nat :=
  if s.closed then (s, [c])
  else ({ s with children := s.children ++ [c] }, [])

/-! ## Cooperative cancellation of a synchronous producer -/

/-- The observable state of the cancellation scenario: the producer's
side-effect log, the number of values the consumer has observed, and the
subscriber's `closed` flag as polled by the producer. -/
structure LoopState where
  sideEffects : List Nat
  taken : Nat
  closed : Bool
deriving DecidableEq, Repr

/-- Modelled from the spec: the consumer of the cancellation test — a
`mapTo(0)` stage (which preserves cardinality) feeding a take-N consumer
that counts deliveries and unsubscribes the chain upon receiving the N-th
value, which sets the producer-visible `closed` flag. -/
def consumerNext (N : Nat) (st : LoopState) : LoopState :=
  { st with taken := st.taken + 1, closed := st.closed || decide (N ≤ st.taken + 1) }

/-- The producer of `src/unnamed/part_000` lines 95–102:
`for (let i = 0; !subscriber.closed && i < 10; i++)
   { sideEffects.push(i); subscriber.next(i); }`,
polling the subscriber's `closed` flag between emissions.  The last
argument is a structural recursion bound; ten iterations suffice. -/
def producerLoop (N : Nat) (st : LoopState) (i : Nat) : Nat → LoopState
  | 0 => st
  | fuel + 1 =>
    if st.closed = false ∧ i < 10 then
      producerLoop N (consumerNext N { st with sideEffects := st.sideEffects ++ [i] })
        (i + 1) fuel
    else st

/-- The full scenario of the test: fresh state, loop from `i = 0`. -/
def runLoop (N : Nat) : LoopState := producerLoop N ⟨[], 0, false⟩ 0 10

/-! ## Observables and lift -/

/-- Modelled from the spec (§3, §4.1 — the `lift` helper of
`src/internal/util/lift` is not part of the excerpt): an Observable is an
immutable description, either a base producer given by the delivery calls
it makes into each fresh subscription, or a derived Observable holding a
reference to its upstream source plus an operator stage. -/
inductive Obs (α ε : Type) where
  | producer (calls : List (Call α ε))
  | lifted (source : Obs α ε) (op : Stage α α ε)

/-- Modelled from the spec (§4.1): `lift(source, operator)` — pure
construction of a new Observable value capturing `source` and the operator;
it is what `materialize()` invokes at materialize.ts line 64. -/
def lift {α ε : Type} (source : Obs α ε) (op : Stage α α ε) : Obs α ε :=
  .lifted source op

/-- The upstream Observable a derived Observable references, if any. -/
def Obs.sourceOf {α ε : Type} : Obs α ε → Option (Obs α ε)
  | .producer _ => none
  | .lifted src _ => some src

/-- The number of lift applications an Observable is built from. -/
def Obs.depth {α ε : Type} : Obs α ε → Nat
  | .producer _ => 0
  | .lifted src _ => src.depth + 1

/-- The events one subscription to an Observable delivers to a fresh
guarded Subscriber.  For a derived Observable this follows
`MaterializeOperator.call` (materialize.ts lines 69–71): subscribe a new
stage Subscriber, chained to the destination, to the upstream source. -/
def Obs.deliveries {α ε : Type} : Obs α ε → List (Event α ε)
  | .producer calls => (Sub.init.runCalls calls).received
  | .lifted src op =>
    (Pipe.run op Pipe.init (src.deliveries.map Event.toCall)).dest.received

/-! ## Independence of distinct subscriptions -/

/-- Two simultaneously open subscriptions to the same operator, as a pair
of pipeline states; an interleaved upstream event is routed to the
subscription it belongs to. -/
def routePair {α β ε : Type} (stg : Stage α β ε) (pq : Pipe β ε × Pipe β ε)
    (tc : Bool × Call α ε) : Pipe β ε × Pipe β ε :=
  if tc.1 then (Pipe.step stg pq.1 tc.2, pq.2)
  else (pq.1, Pipe.step stg pq.2 tc.2)

/-- Run an interleaved upstream call sequence over two subscriptions. -/
def runPair {α β ε : Type} (stg : Stage α β ε) (pq : Pipe β ε × Pipe β ε)
    (il : List (Bool × Call α ε)) : Pipe β ε × Pipe β ε :=
  il.foldl (routePair stg) pq

/-- The calls an interleaving routes to one of the two subscriptions, in
order. -/
def projCalls {α ε : Type} (b : Bool) (il : List (Bool × Call α ε)) :
    List (Call α ε) :=
  (il.filter (fun tc => tc.1 == b)).map Prod.snd

/-! ## Basic run lemmas -/

theorem Sub.runCalls_append {α ε : Type} (s : Sub α ε) (cs cs' : List (Call α ε)) :
    s.runCalls (cs ++ cs') = (s.runCalls cs).runCalls cs' :=
  List.foldl_append _ _ _ _

theorem Pipe.run_append {α β ε : Type} (stg : Stage α β ε) (p : Pipe β ε)
    (cs cs' : List (Call α ε)) :
    Pipe.run stg p (cs ++ cs') = Pipe.run stg (Pipe.run stg p cs) cs' :=
  List.foldl_append _ _ _ _

theorem Pipe.run_singleton {α β ε : Type} (stg : Stage α β ε) (p : Pipe β ε)
    (c : Call α ε) : Pipe.run stg p [c] = Pipe.step stg p c :=
  rfl

/-- A non-active Subscriber forwards nothing and never reactivates. -/
theorem Sub.stepCall_not_active {α ε : Type} {s : Sub α ε} (h : s.state ≠ .ACTIVE)
    (c : Call α ε) :
    (s.stepCall c).received = s.received ∧ (s.stepCall c).state ≠ .ACTIVE := by
  cases c <;>
    simp only [Sub.stepCall, Sub.deliverValue, Sub.deliverError, Sub.deliverComplete,
      Sub.dispose, if_neg h]
  · exact ⟨trivial, h⟩
  · exact ⟨trivial, h⟩
  · exact ⟨trivial, h⟩
  · split
    · exact ⟨rfl, h⟩
    · exact ⟨rfl, by simp⟩

/-- Running any upstream call sequence from a non-active Subscriber leaves
the delivered-event record unchanged. -/
theorem Sub.runCalls_not_active {α ε : Type} {s : Sub α ε} (h : s.state ≠ .ACTIVE)
    (cs : List (Call α ε)) :
    (s.runCalls cs).received = s.received := by
  induction cs generalizing s with
  | nil => rfl
  | cons c cs ih =>
    have hstep := Sub.stepCall_not_active h c
    simp only [Sub.runCalls, List.foldl_cons]
    rw [show List.foldl Sub.stepCall (s.stepCall c) cs = (s.stepCall c).runCalls cs from rfl,
      ih hstep.2, hstep.1]

/-- A closed stage Subscriber absorbs every further upstream call. -/
theorem Pipe.step_closed {α β ε : Type} (stg : Stage α β ε) (d : Sub β ε)
    (c : Call α ε) :
    Pipe.step stg ⟨.CLOSED, d⟩ c = ⟨.CLOSED, d⟩ := by
  cases c <;> simp [Pipe.step]

/-- Running any upstream call sequence from a closed stage is a no-op. -/
theorem Pipe.run_closed {α β ε : Type} (stg : Stage α β ε) (d : Sub β ε)
    (cs : List (Call α ε)) :
    Pipe.run stg ⟨.CLOSED, d⟩ cs = ⟨.CLOSED, d⟩ := by
  induction cs with
  | nil => rfl
  | cons c cs ih =>
    simp only [Pipe.run, List.foldl_cons, Pipe.step_closed]
    exact ih

theorem termCount_append_next {α ε : Type} (l : List (Event α ε)) (v : α) :
    termCount (l ++ [.next v]) = termCount l := by
  simp [termCount, List.countP_append, List.countP_cons, Event.isErr, Event.isComplete]

theorem termCount_append_err {α ε : Type} (l : List (Event α ε)) (e : ε) :
    termCount (l ++ [.err e]) = termCount l + 1 := by
  simp [termCount, List.countP_append, List.countP_cons, Event.isErr, Event.isComplete]
  omega

theorem termCount_append_complete {α ε : Type} (l : List (Event α ε)) :
    termCount (l ++ [(.complete : Event α ε)]) = termCount l + 1 := by
  simp [termCount, List.countP_append, List.countP_cons, Event.isErr, Event.isComplete]
  omega

/-- Disposing a stopped Subscriber closes it, leaving the record intact. -/
theorem Sub.dispose_stopped {α ε : Type} (l : List (Event α ε)) :
    Sub.dispose ⟨.STOPPED, l⟩ = (⟨.CLOSED, l⟩ : Sub α ε) := by
  simp [Sub.dispose]

/-- The guard invariant is preserved by delivering any one event. -/
theorem SubInv.deliverEvent {α ε : Type} {s : Sub α ε} (h : SubInv s)
    (ev : Event α ε) : SubInv (s.deliverEvent ev) := by
  obtain ⟨hact, hle⟩ := h
  cases ev with
  | next v =>
    simp only [Sub.deliverEvent, Sub.deliverValue]
    split
    · exact ⟨fun _ => by rw [termCount_append_next]; exact hact (by assumption),
        by rw [termCount_append_next]; exact hle⟩
    · exact ⟨hact, hle⟩
  | err e =>
    simp only [Sub.deliverEvent, Sub.deliverError]
    split
    · rw [Sub.dispose_stopped]
      refine ⟨fun hc => by simp at hc, ?_⟩
      rw [termCount_append_err, hact (by assumption)]
    · exact ⟨hact, hle⟩
  | complete =>
    simp only [Sub.deliverEvent, Sub.deliverComplete]
    split
    · rw [Sub.dispose_stopped]
      refine ⟨fun hc => by simp at hc, ?_⟩
      rw [termCount_append_complete, hact (by assumption)]
    · exact ⟨hact, hle⟩

/-- The guard invariant is preserved by delivering any event list. -/
theorem SubInv.deliverList {α ε : Type} {s : Sub α ε} (h : SubInv s)
    (evs : List (Event α ε)) : SubInv (s.deliverList evs) := by
  induction evs generalizing s with
  | nil => exact h
  | cons ev evs ih => exact ih (h.deliverEvent ev)

/-- Disposal never delivers, so it preserves the guard invariant. -/
theorem SubInv.dispose {α ε : Type} {s : Sub α ε} (h : SubInv s) :
    SubInv s.dispose := by
  obtain ⟨hact, hle⟩ := h
  simp only [Sub.dispose]
  split
  · exact ⟨hact, hle⟩
  · exact ⟨fun hc => by simp at hc, hle⟩

/-- One pipeline step preserves the destination's guard invariant. -/
theorem SubInv.pipeStep {α β ε : Type} (stg : Stage α β ε) {p : Pipe β ε}
    (h : SubInv p.dest) (c : Call α ε) : SubInv (Pipe.step stg p c).dest := by
  cases c <;> simp only [Pipe.step] <;> split <;>
    first
    | exact h.deliverList _
    | exact h
    | exact h.dispose

/-- A whole pipeline run preserves the destination's guard invariant. -/
theorem SubInv.pipeRun {α β ε : Type} (stg : Stage α β ε) {p : Pipe β ε}
    (h : SubInv p.dest) (cs : List (Call α ε)) :
    SubInv (Pipe.run stg p cs).dest := by
  induction cs generalizing p with
  | nil => exact h
  | cons c cs ih => exact ih (h.pipeStep stg c)

/-- A non-active stage Subscriber forwards nothing to its destination and
never reactivates. -/
theorem Pipe.step_not_active {α β ε : Type} (stg : Stage α β ε) {p : Pipe β ε}
    (h : p.stage ≠ .ACTIVE) (c : Call α ε) :
    (Pipe.step stg p c).dest.received = p.dest.received ∧
      (Pipe.step stg p c).stage ≠ .ACTIVE := by
  cases c <;> simp only [Pipe.step, if_neg h]
  · exact ⟨trivial, h⟩
  · exact ⟨trivial, h⟩
  · exact ⟨trivial, h⟩
  · split
    · exact ⟨rfl, h⟩
    · refine ⟨?_, by simp⟩
      simp only [Sub.dispose]
      split <;> rfl

/-- Running any upstream call sequence from a non-active stage leaves the
destination's delivered-event record unchanged. -/
theorem Pipe.run_not_active {α β ε : Type} (stg : Stage α β ε) {p : Pipe β ε}
    (h : p.stage ≠ .ACTIVE) (cs : List (Call α ε)) :
    (Pipe.run stg p cs).dest.received = p.dest.received := by
  induction cs generalizing p with
  | nil => rfl
  | cons c cs ih =>
    have hstep := Pipe.step_not_active stg h c
    simp only [Pipe.run, List.foldl_cons]
    rw [show List.foldl (Pipe.step stg) (Pipe.step stg p c) cs
        = Pipe.run stg (Pipe.step stg p c) cs from rfl,
      ih hstep.2, hstep.1]

/-- **C1.** For every pipeline stage and every (arbitrary, possibly
misbehaving) sequence of upstream delivery calls, the destination
Subscriber receives at most one terminal event: the number of error-channel
deliveries plus the number of completion deliveries is at most one, so
error and completion are mutually exclusive and each is delivered at most
once. -/
theorem claim_C1_exactly_once_termination {α β ε : Type} (stg : Stage α β ε)
    (cs : List (Call α ε)) :
    ((Pipe.run stg Pipe.init cs).dest.received.countP Event.isErr)
      + ((Pipe.run stg Pipe.init cs).dest.received.countP Event.isComplete) ≤ 1 := by
  have hinit : SubInv (Pipe.init (β := β) (ε := ε)).dest :=
    ⟨fun _ => rfl, by simp [termCount, Pipe.init, Sub.init]⟩
  exact (hinit.pipeRun stg cs).2

/-- **C2.** Once a Subscriber is no longer `ACTIVE` (`STOPPED` via
error/completion, or `CLOSED` via disposal), no subsequent value, error, or
completion from upstream is ever forwarded to the destination, even if
upstream keeps invoking the delivery methods — both for a bare guarded
Subscriber and for an operator stage chained to a destination. -/
theorem claim_C2_no_post_terminal_delivery {α β γ ε : Type} (s : Sub α ε)
    (stg : Stage γ β ε) (p : Pipe β ε) (cs : List (Call α ε))
    (ds : List (Call γ ε)) (hs : s.state ≠ .ACTIVE) (hp : p.stage ≠ .ACTIVE) :
    (s.runCalls cs).received = s.received ∧
      (Pipe.run stg p ds).dest.received = p.dest.received :=
  ⟨Sub.runCalls_not_active hs cs, Pipe.run_not_active stg hp ds⟩

/-- Witness for C2 at concrete inputs: a stopped Subscriber and a closed
mapTo stage each ignore a later barrage of upstream calls. -/
theorem claim_C2_witness :
    ((⟨.STOPPED, [.complete]⟩ : Sub Nat Nat).state ≠ .ACTIVE) ∧
      ((⟨.CLOSED, ⟨.STOPPED, [.next 7]⟩⟩ : Pipe Nat Nat).stage ≠ .ACTIVE) ∧
      (Sub.runCalls ⟨.STOPPED, [.complete]⟩
        [.next 5, .err 3, .complete, .dispose]).received = [.complete] ∧
      (Pipe.run (mapToStage 7) ⟨.CLOSED, ⟨.STOPPED, [.next 7]⟩⟩
        [.next 1, .err 2, .complete, .dispose]).dest.received = [.next 7] := by
  refine ⟨by decide, by decide, ?_⟩
  have h := claim_C2_no_post_terminal_delivery
    (⟨.STOPPED, [.complete]⟩ : Sub Nat Nat) (mapToStage 7)
    (⟨.CLOSED, ⟨.STOPPED, [.next 7]⟩⟩ : Pipe Nat Nat)
    [.next 5, .err 3, .complete, .dispose]
    [.next 1, .err 2, .complete, .dispose] (by decide) (by decide)
  exact h

/-! ## Runs of well-formed upstream prefixes -/

/-- Any stage whose `_next` emits exactly one value-event forwards a block
of upstream values one-for-one, leaving both lifecycle states active. -/
theorem Pipe.run_next_block {α β ε : Type} (stg : Stage α β ε) (f : α → β)
    (hf : ∀ v, stg.onNext v = [.next (f v)]) (vs : List α)
    (d : List (Event β ε)) :
    Pipe.run stg ⟨.ACTIVE, ⟨.ACTIVE, d⟩⟩ (vs.map .next)
      = ⟨.ACTIVE, ⟨.ACTIVE, d ++ vs.map (fun v => .next (f v))⟩⟩ := by
  induction vs generalizing d with
  | nil => simp [Pipe.run]
  | cons v vs ih =>
    have hstep : Pipe.step stg ⟨.ACTIVE, ⟨.ACTIVE, d⟩⟩ (.next v)
        = ⟨.ACTIVE, ⟨.ACTIVE, d ++ [.next (f v)]⟩⟩ := by
      simp [Pipe.step, hf, Sub.deliverList, Sub.deliverEvent, Sub.deliverValue]
    simp only [List.map_cons, Pipe.run, List.foldl_cons, hstep]
    rw [show List.foldl (Pipe.step stg) (⟨.ACTIVE, ⟨.ACTIVE, d ++ [.next (f v)]⟩⟩ : Pipe β ε)
        (vs.map .next) = Pipe.run stg ⟨.ACTIVE, ⟨.ACTIVE, d ++ [.next (f v)]⟩⟩ (vs.map .next)
      from rfl, ih]
    simp

/-- `MaterializeSubscriber._error` (materialize.ts lines 88–92) on an active
pipeline: the error is reified as a `next` value and followed by a
completion; both ends terminate. -/
theorem materialize_step_err {α ε : Type} (d : List (Event (Notification α ε) ε)) (e : ε) :
    Pipe.step materializeStage ⟨.ACTIVE, ⟨.ACTIVE, d⟩⟩ (.err e)
      = ⟨.CLOSED, ⟨.CLOSED, d ++ [.next (.E e), .complete]⟩⟩ := by
  simp [Pipe.step, materializeStage, Sub.deliverList, Sub.deliverEvent,
    Sub.deliverValue, Sub.deliverComplete, Sub.dispose, Notification.createError]

/-- `MaterializeSubscriber._complete` (materialize.ts lines 94–98) on an
active pipeline: completion is reified as a `next` value and followed by a
completion; both ends terminate. -/
theorem materialize_step_complete {α ε : Type} (d : List (Event (Notification α ε) ε)) :
    Pipe.step materializeStage ⟨.ACTIVE, ⟨.ACTIVE, d⟩⟩ .complete
      = ⟨.CLOSED, ⟨.CLOSED, d ++ [.next .C, .complete]⟩⟩ := by
  simp [Pipe.step, materializeStage, Sub.deliverList, Sub.deliverEvent,
    Sub.deliverValue, Sub.deliverComplete, Sub.dispose, Notification.createComplete]

/-- Delivering a non-error event adds nothing to the destination's
error-channel count. -/
theorem countErr_deliverEvent {α ε : Type} (s : Sub α ε) {ev : Event α ε}
    (hev : ev.isErr = false) :
    ((s.deliverEvent ev).received.countP Event.isErr)
      = s.received.countP Event.isErr := by
  cases ev with
  | next v =>
    simp only [Sub.deliverEvent, Sub.deliverValue]
    split
    · simp [List.countP_append, List.countP_cons, Event.isErr]
    · rfl
  | err e => simp [Event.isErr] at hev
  | complete =>
    simp only [Sub.deliverEvent, Sub.deliverComplete]
    split
    · rw [Sub.dispose_stopped]
      simp [List.countP_append, List.countP_cons, Event.isErr]
    · rfl

/-- Delivering a list of non-error events preserves the destination's
error-channel count. -/
theorem countErr_deliverList {α ε : Type} (s : Sub α ε)
    {evs : List (Event α ε)} (hevs : ∀ ev ∈ evs, ev.isErr = false) :
    ((s.deliverList evs).received.countP Event.isErr)
      = s.received.countP Event.isErr := by
  induction evs generalizing s with
  | nil => rfl
  | cons ev evs ih =>
    simp only [Sub.deliverList, List.foldl_cons]
    rw [show List.foldl Sub.deliverEvent (s.deliverEvent ev) evs
        = (s.deliverEvent ev).deliverList evs from rfl,
      ih _ (fun x hx => hevs x (List.mem_cons_of_mem _ hx)),
      countErr_deliverEvent s (hevs ev (List.mem_cons_self ev evs))]

/-- The materialize stage never touches its destination's error channel,
whatever one upstream call arrives. -/
theorem materialize_step_countErr {α ε : Type} (p : Pipe (Notification α ε) ε)
    (c : Call α ε) :
    ((Pipe.step materializeStage p c).dest.received.countP Event.isErr)
      = p.dest.received.countP Event.isErr := by
  cases c <;> simp only [Pipe.step] <;> split
  · exact countErr_deliverList _ (by simp [materializeStage, Event.isErr])
  · rfl
  · exact countErr_deliverList _
      (by simp [materializeStage, Event.isErr, Notification.createError])
  · rfl
  · exact countErr_deliverList _ (by simp [materializeStage, Event.isErr])
  · rfl
  · rfl
  · simp only [Sub.dispose]; split <;> rfl

/-- The materialize stage never touches its destination's error channel,
whatever full upstream call sequence arrives. -/
theorem materialize_run_countErr {α ε : Type} (p : Pipe (Notification α ε) ε)
    (cs : List (Call α ε)) :
    ((Pipe.run materializeStage p cs).dest.received.countP Event.isErr)
      = p.dest.received.countP Event.isErr := by
  induction cs generalizing p with
  | nil => rfl
  | cons c cs ih =>
    simp only [Pipe.run, List.foldl_cons]
    rw [show List.foldl (Pipe.step materializeStage) (Pipe.step materializeStage p c) cs
        = Pipe.run materializeStage (Pipe.step materializeStage p c) cs from rfl,
      ih, materialize_step_countErr]

/-- **C3.** On an upstream error `e` after any block of values, materialize
delivers `Notification.createError e` to its destination as a value (via
`next`), then immediately delivers completion, and nothing afterwards even
if upstream keeps calling; moreover, for a fully arbitrary upstream call
sequence, the destination's error channel is never invoked by this stage. -/
theorem claim_C3_materialize_error_reified {α ε : Type} (vs : List α) (e : ε)
    (rest cs : List (Call α ε)) :
    (Pipe.run materializeStage Pipe.init (vs.map .next ++ .err e :: rest)).dest.received
        = vs.map (fun v => .next (.N v)) ++ [.next (.E e), .complete] ∧
      ((Pipe.run materializeStage Pipe.init cs).dest.received.countP Event.isErr) = 0 := by
  constructor
  · rw [show vs.map (Call.next (ε := ε)) ++ .err e :: rest
        = (vs.map .next ++ [.err e]) ++ rest by simp,
      Pipe.run_append, Pipe.run_append,
      show (Pipe.init : Pipe (Notification α ε) ε) = ⟨.ACTIVE, ⟨.ACTIVE, []⟩⟩ from rfl,
      Pipe.run_next_block materializeStage (fun v => .N v) (fun _ => rfl),
      Pipe.run_singleton, materialize_step_err, Pipe.run_closed]
    simp
  · rw [materialize_run_countErr]
    rfl

/-- **C4.** materialize delivers `Notification.createNext v` as a value for
each upstream value `v`; on upstream completion it delivers
`Notification.createComplete` as a value then immediately completes; in
each terminal case exactly one reified notification value precedes the
synthetic completion and no value is delivered afterward, even if upstream
keeps calling. -/
theorem claim_C4_materialize_reification {α ε : Type} (vs : List α) (e : ε)
    (rest rest' : List (Call α ε)) :
    (Pipe.run materializeStage Pipe.init (vs.map .next)).dest.received
        = vs.map (fun v => (.next (.N v) : Event (Notification α ε) ε)) ∧
      (Pipe.run materializeStage Pipe.init (vs.map .next ++ .complete :: rest)).dest.received
        = vs.map (fun v => .next (.N v)) ++ [.next .C, .complete] ∧
      (Pipe.run materializeStage Pipe.init (vs.map .next ++ .err e :: rest')).dest.received
        = vs.map (fun v => .next (.N v)) ++ [.next (.E e), .complete] := by
  refine ⟨?_, ?_, ?_⟩
  · rw [show (Pipe.init : Pipe (Notification α ε) ε) = ⟨.ACTIVE, ⟨.ACTIVE, []⟩⟩ from rfl,
      Pipe.run_next_block materializeStage (fun v => .N v) (fun _ => rfl)]
    simp
  · rw [show vs.map (Call.next (ε := ε)) ++ .complete :: rest
        = (vs.map .next ++ [.complete]) ++ rest by simp,
      Pipe.run_append, Pipe.run_append,
      show (Pipe.init : Pipe (Notification α ε) ε) = ⟨.ACTIVE, ⟨.ACTIVE, []⟩⟩ from rfl,
      Pipe.run_next_block materializeStage (fun v => .N v) (fun _ => rfl),
      Pipe.run_singleton, materialize_step_complete, Pipe.run_closed]
    simp
  · rw [show vs.map (Call.next (ε := ε)) ++ .err e :: rest'
        = (vs.map .next ++ [.err e]) ++ rest' by simp,
      Pipe.run_append, Pipe.run_append,
      show (Pipe.init : Pipe (Notification α ε) ε) = ⟨.ACTIVE, ⟨.ACTIVE, []⟩⟩ from rfl,
      Pipe.run_next_block materializeStage (fun v => .N v) (fun _ => rfl),
      Pipe.run_singleton, materialize_step_err, Pipe.run_closed]
    simp

/-! ## mapTo runs -/

/-- A mapTo stage on an active pipeline terminates both ends on an upstream
error and forwards the error unchanged. -/
theorem mapTo_step_err {α β ε : Type} (c : β) (d : List (Event β ε)) (e : ε) :
    Pipe.step (mapToStage (α := α) c) ⟨.ACTIVE, ⟨.ACTIVE, d⟩⟩ (.err e)
      = ⟨.CLOSED, ⟨.CLOSED, d ++ [.err e]⟩⟩ := by
  simp [Pipe.step, mapToStage, Sub.deliverList, Sub.deliverEvent, Sub.deliverError,
    Sub.dispose]

/-- A mapTo stage on an active pipeline terminates both ends on upstream
completion and forwards the completion unchanged. -/
theorem mapTo_step_complete {α β ε : Type} (c : β) (d : List (Event β ε)) :
    Pipe.step (mapToStage (α := α) c) ⟨.ACTIVE, ⟨.ACTIVE, d⟩⟩ .complete
      = ⟨.CLOSED, ⟨.CLOSED, d ++ [.complete]⟩⟩ := by
  simp [Pipe.step, mapToStage, Sub.deliverList, Sub.deliverEvent, Sub.deliverComplete,
    Sub.dispose]

/-- mapTo on a value block followed by completion: the constant at every
value position, then the completion, nothing afterwards. -/
theorem mapTo_run_complete {α β ε : Type} (c : β) (vs : List α)
    (rest : List (Call α ε)) :
    (Pipe.run (mapToStage c) Pipe.init (vs.map .next ++ .complete :: rest)).dest.received
      = vs.map (fun _ => (.next c : Event β ε)) ++ [.complete] := by
  rw [show vs.map (Call.next (ε := ε)) ++ .complete :: rest
      = (vs.map .next ++ [.complete]) ++ rest by simp,
    Pipe.run_append, Pipe.run_append,
    show (Pipe.init : Pipe β ε) = ⟨.ACTIVE, ⟨.ACTIVE, []⟩⟩ from rfl,
    Pipe.run_next_block (mapToStage c) (fun _ => c) (fun _ => rfl),
    Pipe.run_singleton, mapTo_step_complete, Pipe.run_closed]
  simp

/-- mapTo on a value block followed by an error: the constant at every
value position, then the same error, with no completion event and nothing
afterwards. -/
theorem mapTo_run_err {α β ε : Type} (c : β) (vs : List α) (e : ε)
    (rest : List (Call α ε)) :
    (Pipe.run (mapToStage c) Pipe.init (vs.map .next ++ .err e :: rest)).dest.received
      = vs.map (fun _ => (.next c : Event β ε)) ++ [.err e] := by
  rw [show vs.map (Call.next (ε := ε)) ++ .err e :: rest
      = (vs.map .next ++ [.err e]) ++ rest by simp,
    Pipe.run_append, Pipe.run_append,
    show (Pipe.init : Pipe β ε) = ⟨.ACTIVE, ⟨.ACTIVE, []⟩⟩ from rfl,
    Pipe.run_next_block (mapToStage c) (fun _ => c) (fun _ => rfl),
    Pipe.run_singleton, mapTo_step_err, Pipe.run_closed]
  simp

/-- **C5.** `mapTo(c)` delivers `c` to the destination exactly once per
upstream value, at the same position in the sequence as that value (the
output is the positionwise image of the input block), and forwards
upstream error and completion unchanged at their original positions; an
upstream error is delivered with no subsequent completion. -/
theorem claim_C5_mapTo_constant {α β ε : Type} (c : β) (vs : List α) (e : ε)
    (rest rest' : List (Call α ε)) :
    (Pipe.run (mapToStage c) Pipe.init (vs.map .next)).dest.received
        = vs.map (fun _ => (.next c : Event β ε)) ∧
      (Pipe.run (mapToStage c) Pipe.init (vs.map .next ++ .complete :: rest)).dest.received
        = vs.map (fun _ => .next c) ++ [.complete] ∧
      (Pipe.run (mapToStage c) Pipe.init (vs.map .next ++ .err e :: rest')).dest.received
        = vs.map (fun _ => .next c) ++ [.err e] := by
  refine ⟨?_, mapTo_run_complete c vs rest, mapTo_run_err c vs e rest'⟩
  rw [show (Pipe.init : Pipe β ε) = ⟨.ACTIVE, ⟨.ACTIVE, []⟩⟩ from rfl,
    Pipe.run_next_block (mapToStage c) (fun _ => c) (fun _ => rfl)]
  simp

/-- One step of `mapTo(c1)` then `mapTo(c2)` (lifecycle states in lockstep)
is exactly one step of the single stage `mapTo(c2)`. -/
theorem pipe2_mapTo_step {α β γ ε : Type} (c1 : β) (c2 : γ) (p : Pipe γ ε)
    (c : Call α ε) :
    Pipe2.step (mapToStage c1) (mapToStage c2) ⟨p.stage, p⟩ c
      = ⟨(Pipe.step (mapToStage c2) p c).stage, Pipe.step (mapToStage c2) p c⟩ := by
  obtain ⟨s, d⟩ := p
  cases c <;> cases s <;>
    simp [Pipe2.step, Pipe.step, Pipe.run, mapToStage, Event.toCall,
      Sub.deliverList, Sub.deliverEvent, Sub.deliverValue, Sub.deliverError,
      Sub.deliverComplete, Sub.dispose]

/-- Running `mapTo(c1)` then `mapTo(c2)` equals running the single stage
`mapTo(c2)`, for every upstream call sequence. -/
theorem pipe2_mapTo_run {α β γ ε : Type} (c1 : β) (c2 : γ)
    (cs : List (Call α ε)) (p : Pipe γ ε) :
    Pipe2.run (mapToStage c1) (mapToStage c2) ⟨p.stage, p⟩ cs
      = ⟨(Pipe.run (mapToStage c2) p cs).stage, Pipe.run (mapToStage c2) p cs⟩ := by
  induction cs generalizing p with
  | nil => rfl
  | cons c cs ih =>
    simp only [Pipe2.run, Pipe.run, List.foldl_cons]
    rw [show List.foldl (Pipe2.step (mapToStage c1) (mapToStage c2))
        (Pipe2.step (mapToStage c1) (mapToStage c2) ⟨p.stage, p⟩ c) cs
        = Pipe2.run (mapToStage c1) (mapToStage c2)
          (Pipe2.step (mapToStage c1) (mapToStage c2) ⟨p.stage, p⟩ c) cs from rfl,
      pipe2_mapTo_step, ih]
    rfl

/-- **C6.** Composing mapTo twice in series preserves event cardinality and
positions: for every upstream call sequence, `mapTo(c1)` then `mapTo(c2)`
delivers to the final destination exactly what the single stage `mapTo(c2)`
delivers — in particular, on a block of N values followed by completion,
`c2` appears exactly once at each of the N original positions. -/
theorem claim_C6_mapTo_composed_twice {α β γ ε : Type} (c1 : β) (c2 : γ)
    (cs : List (Call α ε)) (vs : List α) (rest : List (Call α ε)) :
    (Pipe2.run (mapToStage c1) (mapToStage c2) Pipe2.init cs).inner.dest.received
        = (Pipe.run (mapToStage c2) Pipe.init cs).dest.received ∧
      (Pipe2.run (mapToStage c1) (mapToStage c2) Pipe2.init
          (vs.map .next ++ .complete :: rest)).inner.dest.received
        = vs.map (fun _ => (.next c2 : Event γ ε)) ++ [.complete] := by
  constructor
  · rw [show (Pipe2.init : Pipe2 γ ε) = ⟨(Pipe.init : Pipe γ ε).stage, Pipe.init⟩ from rfl,
      pipe2_mapTo_run]
  · rw [show (Pipe2.init : Pipe2 γ ε) = ⟨(Pipe.init : Pipe γ ε).stage, Pipe.init⟩ from rfl,
      pipe2_mapTo_run]
    exact mapTo_run_complete c2 vs rest

/-- A closed Subscription absorbs any number of further unsubscribes with
an empty disposal log. -/
theorem Subscription.unsubscribeTimes_closed {s : Subscription}
    (h : s.closed = true) (n : Nat) : s.unsubscribeTimes n = (s, []) := by
  induction n with
  | zero => rfl
  | succ n ih =>
    simp [Subscription.unsubscribeTimes, Subscription.unsubscribe, if_pos h, ih]

/-- The state after an unsubscribe is always closed. -/
theorem Subscription.unsubscribe_closed (s : Subscription) :
    s.unsubscribe.1.closed = true := by
  simp only [Subscription.unsubscribe]
  split
  · assumption
  · rfl

/-- **C7.** `unsubscribe` is idempotent: calling it `n ≥ 1` times has the
identical observable effect (final state and cumulative disposal log) to
calling it once; a single unsubscribe of an open Subscription disposes
every registered child exactly once, in registration order; and after
disposal, attaching a new child immediately disposes that child instead of
registering it. -/
theorem claim_C7_idempotent_disposal (s : Subscription) (n : Nat) (c : Nat)
    (hn : 1 ≤ n) :
    s.unsubscribeTimes n = s.unsubscribeTimes 1 ∧
      (s.closed = false → s.unsubscribe.2 = s.children) ∧
      s.unsubscribe.1.add c = (s.unsubscribe.1, [c]) := by
  refine ⟨?_, ?_, ?_⟩
  · obtain ⟨m, rfl⟩ : ∃ m, n = m + 1 := ⟨n - 1, by omega⟩
    simp only [Subscription.unsubscribeTimes,
      Subscription.unsubscribeTimes_closed (Subscription.unsubscribe_closed s) m]
  · intro h
    simp only [Subscription.unsubscribe, h, Bool.false_eq_true, if_false]
  · simp only [Subscription.add, Subscription.unsubscribe_closed s, if_true]

/-- Witness for C7 at concrete inputs: three unsubscribes of a two-child
Subscription behave like one, the log is the registration order, and a
post-disposal add disposes the new child at once. -/
theorem claim_C7_witness :
    1 ≤ 3 ∧
      (Subscription.unsubscribeTimes ⟨false, [4, 7]⟩ 3
        = Subscription.unsubscribeTimes ⟨false, [4, 7]⟩ 1) ∧
      (Subscription.unsubscribe ⟨false, [4, 7]⟩).2 = [4, 7] ∧
      (Subscription.unsubscribe ⟨false, [4, 7]⟩).1.add 9
        = ((Subscription.unsubscribe ⟨false, [4, 7]⟩).1, [9]) := by
  have h := claim_C7_idempotent_disposal ⟨false, [4, 7]⟩ 3 9 (by decide)
  exact ⟨by decide, h.1, h.2.1 rfl, h.2.2⟩

/-- Once the subscriber is closed the producer loop stops at the top of the
next iteration, whatever fuel remains. -/
theorem producerLoop_closed {st : LoopState} (h : st.closed = true)
    (N i fuel : Nat) : producerLoop N st i fuel = st := by
  cases fuel <;> simp [producerLoop, h]

/-- The producer loop from position `i`, with `k ≥ 1` values still to be
taken and enough fuel, emits exactly the values `i, …, N-1` and stops
closed at `N`. -/
theorem producerLoop_range (N : Nat) (hN : N < 10) :
    ∀ k i fuel, i + k = N → 1 ≤ k → k ≤ fuel →
      producerLoop N ⟨List.range i, i, false⟩ i fuel = ⟨List.range N, N, true⟩ := by
  intro k
  induction k with
  | zero => intro i fuel _ h1 _; omega
  | succ k ih =>
    intro i fuel hik h1 hfuel
    cases fuel with
    | zero => omega
    | succ fuel =>
      have hcond : (⟨List.range i, i, false⟩ : LoopState).closed = false ∧ i < 10 :=
        ⟨rfl, by omega⟩
      rw [producerLoop, if_pos hcond]
      rcases Nat.lt_or_ge k 1 with hk | hk
      · obtain rfl : k = 0 := by omega
        obtain rfl : N = i + 1 := by omega
        have hnext : consumerNext (i + 1)
            { (⟨List.range i, i, false⟩ : LoopState) with
              sideEffects := List.range i ++ [i] }
            = ⟨List.range (i + 1), i + 1, true⟩ := by
          simp [consumerNext, List.range_succ]
        rw [hnext, producerLoop_closed rfl]
      · have hnext : consumerNext N
            { (⟨List.range i, i, false⟩ : LoopState) with
              sideEffects := List.range i ++ [i] }
            = ⟨List.range (i + 1), i + 1, false⟩ := by
          have : ¬(N ≤ i + 1) := by omega
          simp [consumerNext, List.range_succ, this]
        rw [hnext]
        exact ih (i + 1) fuel (by omega) hk (by omega)

/-- **C8.** For the producer that emits values in a tight synchronous loop
while polling the subscriber's closed state between emissions, with a
consumer that cancels after the N-th value (1 ≤ N < 10 and the loop bound
is 10): exactly N values are observed, exactly N loop iterations run their
side effects (the side-effect log is `[0, …, N-1]`), and the loop does not
run to completion. -/
theorem claim_C8_cancellation_promptness (N : Nat) (h1 : 1 ≤ N) (h2 : N < 10) :
    (runLoop N).sideEffects = List.range N ∧ (runLoop N).taken = N ∧
      (runLoop N).sideEffects.length < 10 := by
  have h : runLoop N = ⟨List.range N, N, true⟩ := by
    rw [runLoop, show (⟨[], 0, false⟩ : LoopState) = ⟨List.range 0, 0, false⟩ from rfl]
    exact producerLoop_range N h2 N 0 10 (by omega) h1 (by omega)
  rw [h]
  exact ⟨rfl, rfl, by simpa using h2⟩

/-- Witness for C8 at the test's concrete input N = 3: side effects
`[0, 1, 2]`, three values taken, loop stopped early. -/
theorem claim_C8_witness :
    1 ≤ 3 ∧ 3 < 10 ∧ (runLoop 3).sideEffects = List.range 3 ∧
      (runLoop 3).taken = 3 ∧ (runLoop 3).sideEffects.length < 10 := by
  have h := claim_C8_cancellation_promptness 3 (by decide) (by decide)
  exact ⟨by decide, by decide, h.1, h.2.1, h.2.2⟩

/-- **C9.** Applying an Operator via lift never mutates the source
Observable: the derived Observable is a strictly new value, it references
the source unchanged, and its behaviour depends on the source only through
the source's own delivered behaviour — so two sources with identical
behaviour yield derived pipelines with identical behaviour, and the same
source can back any number of independent derived pipelines. -/
theorem claim_C9_lift_pure {α ε : Type} (s s' : Obs α ε) (op : Stage α α ε)
    (h : s.deliveries = s'.deliveries) :
    lift s op ≠ s ∧ (lift s op).sourceOf = some s ∧
      (lift s op).deliveries = (lift s' op).deliveries := by
  refine ⟨?_, rfl, ?_⟩
  · intro he
    have hd := congrArg Obs.depth he
    simp only [lift, Obs.depth] at hd
    omega
  · simp only [lift, Obs.deliveries, h]

/-- Witness for C9 at concrete inputs: two base producers that differ as
values but have identical delivered behaviour (the second's post-completion
call is rejected by the Subscriber guard) give mapTo-derived Observables
with identical behaviour, and lifting produces a fresh value keeping the
source. -/
theorem claim_C9_witness :
    Obs.deliveries (Obs.producer [.next 1, .complete] : Obs Nat Nat)
        = Obs.deliveries (Obs.producer [.next 1, .complete, .next 2]) ∧
      lift (Obs.producer [.next 1, .complete] : Obs Nat Nat) (mapToStage 5)
        ≠ Obs.producer [.next 1, .complete] ∧
      (lift (Obs.producer [.next 1, .complete] : Obs Nat Nat)
          (mapToStage 5)).sourceOf = some (Obs.producer [.next 1, .complete]) ∧
      (lift (Obs.producer [.next 1, .complete] : Obs Nat Nat)
          (mapToStage 5)).deliveries
        = (lift (Obs.producer [.next 1, .complete, .next 2])
            (mapToStage 5)).deliveries := by
  have h := claim_C9_lift_pure (Obs.producer [.next 1, .complete] : Obs Nat Nat)
    (Obs.producer [.next 1, .complete, .next 2]) (mapToStage 5) (by decide)
  exact ⟨by decide, h.1, h.2.1, h.2.2⟩

/-- Each subscription of a pair evolves exactly as it would alone on its
own projection of the interleaving: subscriptions share no state. -/
theorem runPair_independent {α β ε : Type} (stg : Stage α β ε) :
    ∀ (il : List (Bool × Call α ε)) (pq : Pipe β ε × Pipe β ε),
      runPair stg pq il
        = (Pipe.run stg pq.1 (projCalls true il),
           Pipe.run stg pq.2 (projCalls false il)) := by
  intro il
  induction il with
  | nil => intro pq; rfl
  | cons tc il ih =>
    intro pq
    obtain ⟨b, c⟩ := tc
    cases b
    · rw [show runPair stg pq ((false, c) :: il)
          = runPair stg (pq.1, Pipe.step stg pq.2 c) il by
            simp [runPair, routePair], ih]
      simp [projCalls, Pipe.run]
    · rw [show runPair stg pq ((true, c) :: il)
          = runPair stg (Pipe.step stg pq.1 c, pq.2) il by
            simp [runPair, routePair], ih]
      simp [projCalls, Pipe.run]

/-- **C10.** materialize is deterministic and stateless per subscription
(the stage carries no state beyond the lifecycle flags of the model): each
of two concurrently open materialize subscriptions, under any interleaving
of upstream events, ends exactly as it would alone on its own event
sequence, and two subscriptions fed identical upstream sequences deliver
identical downstream notification sequences. -/
theorem claim_C10_materialize_stateless {α ε : Type}
    (il : List (Bool × Call α ε)) :
    runPair materializeStage (Pipe.init, Pipe.init) il
        = (Pipe.run materializeStage Pipe.init (projCalls true il),
           Pipe.run materializeStage Pipe.init (projCalls false il)) ∧
      (projCalls true il = projCalls false il →
        (runPair materializeStage (Pipe.init, Pipe.init) il).1
          = (runPair materializeStage (Pipe.init, Pipe.init) il).2) := by
  have h := runPair_independent materializeStage il (Pipe.init, Pipe.init)
  exact ⟨h, fun heq => by rw [h, heq]⟩

/-- Witness for C10 at a concrete interleaving whose two projections are
the identical upstream sequence: both subscriptions deliver the same
notification sequence. -/
theorem claim_C10_witness :
    projCalls true [((true : Bool), (.next 1 : Call Nat Nat)), (false, .next 1),
        (false, .complete), (true, .complete)]
      = projCalls false [((true : Bool), (.next 1 : Call Nat Nat)), (false, .next 1),
        (false, .complete), (true, .complete)] ∧
      (runPair materializeStage (Pipe.init, Pipe.init)
        [((true : Bool), (.next 1 : Call Nat Nat)), (false, .next 1),
          (false, .complete), (true, .complete)]).1
      = (runPair materializeStage (Pipe.init, Pipe.init)
        [((true : Bool), (.next 1 : Call Nat Nat)), (false, .next 1),
          (false, .complete), (true, .complete)]).2 := by
  have h := claim_C10_materialize_stateless
    [((true : Bool), (.next 1 : Call Nat Nat)), (false, .next 1),
      (false, .complete), (true, .complete)]
  exact ⟨by decide, h.2 (by decide)⟩

end RxEngine

